import Mathlib

/-!
Verification of the CBT (changed-block-tracking) VDI backup tool.

This file is a shallow embedding, in Lean 4, of the parts of the Python
source that the specification's claims are about:

* `cbt_bitmap.py` — decoding a CBT bitmap into changed extents
  (`_bitmap_to_extents`, `_merge_adjacent_extents`, `CbtBitmap.get_extents`);
* `python_nbd_client.py` — the NBD client's transmission phase
  (`read`, `write`, `flush`, `close`, request headers, simple replies);
* `vdi_downloader.py` — the incremental VDI backup path;
* `backup.py` — checksum comparison, the per-VM backup try/except
  cleanup, and the snapshot destruction order;
* `md5sum.py` — the file checksum helper.

Machine integers are modelled as `Nat` (Python integers are unbounded);
bytes are `Nat` values, byte strings are `List Nat`; Python exceptions
are modelled with `Except`, carrying the exception message and — where
the surviving object state matters — the state at the point of raising.
-/

namespace CbtBackup

/-! ## `cbt_bitmap.py` -/

/-- `BLOCK_SIZE = 64 * 1024` from `cbt_bitmap.py`: bitmaps have one bit
per 64 KiB block. -/
def BLOCK_SIZE : Nat := 64 * 1024

/-- The bits of one byte, most-significant first: this is the order in
which `bitstring.BitArray` enumerates the bits of a byte string. -/
def byteBits (b : Nat) : List Bool :=
  [b.testBit 7, b.testBit 6, b.testBit 5, b.testBit 4,
   b.testBit 3, b.testBit 2, b.testBit 1, b.testBit 0]

/-- `BitArray(cbt_bitmap)`: the bit sequence of a byte string, each byte
contributing its bits most-significant first. -/
def bitArray (bytes : List Nat) : List Bool :=
  (bytes.map byteBits).flatten

/-- Proof helper: the loop of `_bitmap_to_extents` with extents kept in
64 KiB-block units (no `* BLOCK_SIZE` scaling).  `i` is the loop index,
and the accumulator is `none` when `start is None` and `some (start,
length)` otherwise, exactly as in the Python loop. -/
def goBlocks : List Bool → Nat → Option (Nat × Nat) → List (Nat × Nat)
  | [], _, none => []
  | [], _, some (s, l) => [(s, l)]
  | b :: rest, i, none =>
      if b then goBlocks rest (i + 1) (some (i, 1))
      else goBlocks rest (i + 1) none
  | b :: rest, i, some (s, l) =>
      if b then goBlocks rest (i + 1) (some (s, l + 1))
      else (s, l) :: goBlocks rest (i + 1) none

/-- The loop of `_bitmap_to_extents` (`cbt_bitmap.py` lines 27–41):
scan the bits in order, maintaining the current run of 1-bits as
`some (start, length)`, and yield `(start * BLOCK_SIZE, length *
BLOCK_SIZE)` whenever a run ends (and once more at end of bitmap if a
run is open). -/
def bitmapToExtentsGo : List Bool → Nat → Option (Nat × Nat) → List (Nat × Nat)
  | [], _, none => []
  | [], _, some (s, l) => [(s * BLOCK_SIZE, l * BLOCK_SIZE)]
  | b :: rest, i, none =>
      if b then bitmapToExtentsGo rest (i + 1) (some (i, 1))
      else bitmapToExtentsGo rest (i + 1) none
  | b :: rest, i, some (s, l) =>
      if b then bitmapToExtentsGo rest (i + 1) (some (s, l + 1))
      else (s * BLOCK_SIZE, l * BLOCK_SIZE) :: bitmapToExtentsGo rest (i + 1) none

/-- `_bitmap_to_extents(cbt_bitmap)`: the full sequence produced by the
generator, starting from index 0 with no open run. -/
def bitmap_to_extents (bits : List Bool) : List (Nat × Nat) :=
  bitmapToExtentsGo bits 0 none

/-- The `for` loop of `_merge_adjacent_extents` together with the final
`yield last`: `last` is the pending extent; an incoming extent starting
exactly at `last`'s end is absorbed into `last`, any other extent
flushes `last`. -/
def mergeGo (last : Nat × Nat) : List (Nat × Nat) → List (Nat × Nat)
  | [] => [last]
  | e :: rest =>
      if e.1 = last.1 + last.2 then mergeGo (last.1, last.2 + e.2) rest
      else last :: mergeGo e rest

/-- `_merge_adjacent_extents(extents)` (`cbt_bitmap.py` lines 44–70),
called — as in `CbtBitmap.get_extents` — on the generator returned by
`_bitmap_to_extents`.  The guard `if not extents: return` tests the
truthiness of the generator object, which is always `True` in Python, so
the early return for an empty input is never taken; `last =
next(extents)` on an exhausted generator then raises `StopIteration`,
which PEP 479 converts into a `RuntimeError` inside the generator body.
The input list here is the sequence of items the argument generator
yields. -/
def mergeAdjacentExtents (extents : List (Nat × Nat)) :
    Except String (List (Nat × Nat)) :=
  match extents with
  | [] => .error "RuntimeError: generator raised StopIteration"
  | e :: rest => .ok (mergeGo e rest)

/-- `CbtBitmap.get_extents(merge_adjacent_extents)` (`cbt_bitmap.py`
lines 100–109), with the wrapped bitmap given as its decoded byte
string.  Returns the yielded sequence, or the exception raised while
consuming it. -/
def get_extents (bitmapBytes : List Nat) (mergeAdjacent : Bool) :
    Except String (List (Nat × Nat)) :=
  if mergeAdjacent then mergeAdjacentExtents (bitmap_to_extents (bitArray bitmapBytes))
  else .ok (bitmap_to_extents (bitArray bitmapBytes))

/-- A sequence of byte extents covers 64 KiB block `j` when one of its
extents contains the whole block; stated here in block units. -/
def covers (E : List (Nat × Nat)) (j : Nat) : Prop :=
  ∃ e ∈ E, e.1 ≤ j ∧ j < e.1 + e.2

/-- Invariant of the `_bitmap_to_extents` loop state: `lo` is a lower
bound on every extent start still to be produced; an open run
`some (start, length)` is nonempty and ends exactly at the loop index. -/
def stOk : Option (Nat × Nat) → Nat → Nat → Prop
  | none, i, lo => lo ≤ i
  | some (s, l), i, lo => lo ≤ s ∧ 1 ≤ l ∧ s + l = i

/-- The blocks covered by the open run of the loop state, up to loop
index `i`. -/
def stCovers : Option (Nat × Nat) → Nat → Nat → Prop
  | none, _, _ => False
  | some (s, _), i, j => s ≤ j ∧ j < i

/-! ## `vdi_downloader.py` -/

/-- An NBD read of `length` bytes at `offset` from the export's
contents `disk` (the data channel is modelled by its contents). -/
def nbdDiskRead (disk : List Nat) (offset length : Nat) : List Nat :=
  (disk.drop offset).take length

/-- `out.seek(current_offset)` followed by `out.write(data)` on a file
opened in mode `r+b`: the bytes `[offset, offset + data.length)` are
replaced, with zero padding if the seek goes past end of file. -/
def writeAt (file : List Nat) (offset : Nat) (data : List Nat) : List Nat :=
  file.take offset ++ List.replicate (offset - file.length) 0 ++ data
    ++ file.drop (offset + data.length)

/-- Python `range(start, stop, step)` for positive `step`. -/
def rangeStep (start stop step : Nat) : List Nat :=
  (List.range ((stop - start + step - 1) / step)).map (fun k => start + k * step)

/-- The inner loop of `_download_nbd_extents` for one extent: walk the
extent in `blockSize` sub-blocks, read each from NBD, seek and write it
into the output file. -/
def downloadExtent (disk : List Nat) (blockSize : Nat) (file : List Nat)
    (offset length : Nat) : List Nat :=
  (rangeStep offset (offset + length) blockSize).foldl
    (fun f cur => writeAt f cur (nbdDiskRead disk cur (min blockSize (offset + length - cur))))
    file

/-- `_download_nbd_extents` (`vdi_downloader.py` lines 61–75) in
OVERWRITE mode. -/
def download_nbd_extents (disk : List Nat) (blockSize : Nat)
    (extents : List (Nat × Nat)) (outFile : List Nat) : List Nat :=
  extents.foldl (fun f e => downloadExtent disk blockSize f e.1 e.2) outFile

/-- The call `bitmap.get_extents()` in `_download_changed_blocks`
(`vdi_downloader.py` line 89): `CbtBitmap.get_extents` has a required
positional parameter `merge_adjacent_extents` which this call omits, so
Python raises `TypeError` before anything is read or written. -/
def get_extents_no_args : Except String (List (Nat × Nat)) :=
  .error "TypeError: get_extents() missing 1 required positional argument merge_adjacent_extents"

/-- `_download_changed_blocks` (`vdi_downloader.py` lines 77–95). -/
def download_changed_blocks (disk : List Nat) (blockSize : Nat)
    (bitmapBytes : List Nat) (outFile : List Nat) : Except String (List Nat) :=
  match get_extents_no_args with
  | .error e => .error e
  | .ok extents => .ok (download_nbd_extents disk blockSize extents outFile)

/-- `_copy(src, dst)`: `cp --reflink`, falling back to `shutil.copy`;
either way `dst` becomes a byte-identical copy of `src`. -/
def copyFile (src : List Nat) : List Nat := src

/-- `VdiDownloader.incremental_vdi_backup` (`vdi_downloader.py` lines
110–135): fetch the changed-block bitmap, copy the base backup file to
the output, then download the changed blocks over the copy in OVERWRITE
mode. -/
def incremental_vdi_backup (disk : List Nat) (blockSize : Nat)
    (bitmapBytes baseFile : List Nat) : Except String (List Nat) :=
  download_changed_blocks disk blockSize bitmapBytes (copyFile baseFile)

/-! ## `md5sum.py` and the checksum comparison in `backup.py` -/

/-- The successive chunks returned by `infile.read(65536)` in
`file_checksum`. -/
def chunks64k (data : List Nat) : List (List Nat) :=
  match data with
  | [] => []
  | x :: xs => ((x :: xs).take 65536) :: chunks64k (xs.drop 65535)
termination_by data.length
decreasing_by
  simp [List.length_drop]
  omega

/-- `file_checksum(filepath)` (`md5sum.py` lines 12–23): fold the
hasher over the file contents read in 64 KiB chunks.  `hashlib.md5` is
an external library, so the hasher is abstract: `init` models
`hashlib.md5()`, `upd` models `update` and `hex` models `hexdigest`. -/
def file_checksum {α : Type} (init : α) (upd : α → List Nat → α) (hex : α → String)
    (file : List Nat) : String :=
  hex ((chunks64k file).foldl upd init)

/-- The attributes the module `md5sum` actually defines. -/
def md5sumModuleAttrs : List String := ["file_checksum", "vdi_checksum"]

/-- Python attribute lookup on the `md5sum` module. -/
def md5sumGetAttr (name : String) : Except String String :=
  if name ∈ md5sumModuleAttrs then .ok name
  else .error ("AttributeError: module md5sum has no attribute " ++ name)

/-- `_compare_checksums(session, vdi, backup)` (`backup.py` lines
60–67): start the asynchronous server-side `VDI.checksum` task (whose
eventual result is `serverChecksum`), compute the local checksum with
`md5sum.md5sum(backup)`, wait for the task, and assert equality.  The
local step looks up the attribute `md5sum` on the module `md5sum`,
which defines no such attribute; the code after the lookup is the
comparison the function would perform. -/
def compare_checksums {α : Type} (init : α) (upd : α → List Nat → α) (hex : α → String)
    (serverChecksum : String) (backupFile : List Nat) : Except String Unit :=
  match md5sumGetAttr "md5sum" with
  | .error e => .error e
  | .ok _ =>
    let backupChecksum := file_checksum init upd hex backupFile
    if backupChecksum = serverChecksum then .ok () else .error "AssertionError"

/-! ## `python_nbd_client.py` — transmission phase

The client object state and the socket are modelled together:
`incoming` is the byte stream the server will deliver, `sent` is the
byte stream the client has written to the socket so far.  A raised
Python exception carries the object state at the point of raising
(Python objects survive exceptions). -/

def NBD_CMD_READ : Nat := 0

def NBD_CMD_WRITE : Nat := 1

def NBD_CMD_DISC : Nat := 2

def NBD_CMD_FLUSH : Nat := 3

def NBD_FLAG_SEND_FLUSH : Nat := 4

def NBD_OPT_ABORT : Nat := 2

def NBD_REQUEST_MAGIC : Nat := 0x25609513

def NBD_SIMPLE_REPLY_MAGIC : Nat := 0x67446698

structure NbdClientState where
  flags : Nat
  handle : Nat
  flushed : Bool
  closed : Bool
  transmissionPhase : Bool
  lastSentOption : Option Nat
  incoming : List Nat
  sent : List Nat
deriving DecidableEq, Repr

/-- Result of a client operation: either a raised exception (message
and state at the raise) or a return value and the new state. -/
def NbdResult (α : Type) : Type := Except (String × NbdClientState) (α × NbdClientState)

/-- The client state an operation leaves behind, whether it returned or
raised. -/
def resultState {α : Type} : NbdResult α → NbdClientState
  | .error (_, s) => s
  | .ok (_, s) => s

/-- `struct.pack`, big-endian: `value` in `width` bytes. -/
def beBytes (width value : Nat) : List Nat :=
  (List.range width).map (fun k => value / 256 ^ (width - 1 - k) % 256)

/-- `struct.unpack`, big-endian: the value of a byte string. -/
def beVal (bs : List Nat) : Nat :=
  bs.foldl (fun acc b => acc * 256 + b % 256) 0

/-- `_recvall(length)`: receive exactly `length` bytes, raising
`NBDEOFError` if the peer closes (delivers fewer bytes) first. -/
def recvall (length : Nat) (s : NbdClientState) : NbdResult (List Nat) :=
  if length ≤ s.incoming.length then
    .ok (s.incoming.take length, { s with incoming := s.incoming.drop length })
  else
    .error ("NBDEOFError", { s with incoming := [] })

/-- `self._s.sendall(data)`. -/
def sendall (data : List Nat) (s : NbdClientState) : NbdClientState :=
  { s with sent := s.sent ++ data }

/-- The 28-byte request header `struct.pack(">LHHQQL", NBD_REQUEST_MAGIC,
0, request_type, handle, offset, length)`. -/
def requestHeader (requestType handle offset length : Nat) : List Nat :=
  beBytes 4 NBD_REQUEST_MAGIC ++ beBytes 2 0 ++ beBytes 2 requestType
    ++ beBytes 8 handle ++ beBytes 8 offset ++ beBytes 4 length

/-- `_send_request_header(request_type, offset, length)`
(`python_nbd_client.py` lines 400–406): increment the handle, then send
the header carrying the new handle. -/
def sendRequestHeader (requestType offset length : Nat) (s : NbdClientState) :
    NbdClientState :=
  sendall (requestHeader requestType (s.handle + 1) offset length)
    { s with handle := s.handle + 1 }

/-- `_check_handle(handle)` (`python_nbd_client.py` lines 408–411):
raise `NBDUnexpectedReplyHandleError` unless the reply handle equals the
handle of the last issued request. -/
def checkHandle (handle : Nat) (s : NbdClientState) : NbdResult Unit :=
  if handle = s.handle then .ok ((), s)
  else .error ("NBDUnexpectedReplyHandleError", s)

/-- `_parse_simple_reply(data_length)` (`python_nbd_client.py` lines
413–425): receive the 16-byte reply header, check the magic, check the
handle, receive the data, then raise `NBDTransmissionError` on a
non-zero errno. -/
def parseSimpleReply (dataLength : Nat) (s : NbdClientState) : NbdResult (List Nat) :=
  match recvall 16 s with
  | .error e => .error e
  | .ok (reply, s1) =>
    if beVal (reply.take 4) = NBD_SIMPLE_REPLY_MAGIC then
      match checkHandle (beVal (reply.drop 8)) s1 with
      | .error e => .error e
      | .ok (_, s2) =>
        match recvall dataLength s2 with
        | .error e => .error e
        | .ok (data, s3) =>
          if beVal ((reply.drop 4).take 4) = 0 then .ok (data, s3)
          else .error ("NBDTransmissionError", s3)
    else .error ("NBDProtocolError", s1)

/-- The message of the `ValueError` raised by `_check_alignment`
(`python_nbd_client.py` lines 156–159). -/
def alignmentError (name : String) (value : Nat) : String :=
  name ++ "=" ++ toString value ++ " is not a multiple of 512"

/-- `read(offset, length)` (`python_nbd_client.py` lines 495–505):
check both alignments, send a READ request, parse the simple reply
carrying `length` data bytes. -/
def read (offset length : Nat) (s : NbdClientState) : NbdResult (List Nat) :=
  if offset % 512 = 0 then
    if length % 512 = 0 then
      parseSimpleReply length (sendRequestHeader NBD_CMD_READ offset length s)
    else .error (alignmentError "length" length, s)
  else .error (alignmentError "offset" offset, s)

/-- `write(data, offset)` (`python_nbd_client.py` lines 481–493): check
both alignments, mark the client unflushed, send a WRITE request
followed by the data, wait for the reply. -/
def write (data : List Nat) (offset : Nat) (s : NbdClientState) : NbdResult Nat :=
  if offset % 512 = 0 then
    if data.length % 512 = 0 then
      match parseSimpleReply 0
          (sendall data
            (sendRequestHeader NBD_CMD_WRITE offset data.length
              { s with flushed := false })) with
      | .error e => .error e
      | .ok (_, s1) => .ok (data.length, s1)
    else .error (alignmentError "size" data.length, s)
  else .error (alignmentError "offset" offset, s)

/-- `_need_flush()` (`python_nbd_client.py` lines 507–508): whether the
server advertised `NBD_FLAG_SEND_FLUSH`. -/
def needFlush (s : NbdClientState) : Bool :=
  s.flags &&& NBD_FLAG_SEND_FLUSH != 0

/-- `flush()` (`python_nbd_client.py` lines 510–523): if `_need_flush()`
is false, just mark the client flushed; otherwise send a FLUSH request,
wait for the reply and mark the client flushed. -/
def flush (s : NbdClientState) : NbdResult Unit :=
  if needFlush s = false then .ok ((), { s with flushed := true })
  else
    match parseSimpleReply 0 (sendRequestHeader NBD_CMD_FLUSH 0 0 s) with
    | .error e => .error e
    | .ok (_, s1) => .ok ((), { s1 with flushed := true })

/-- The bytes of the literal `b"IHAVEOPT"`. -/
def ihaveoptBytes : List Nat := [0x49, 0x48, 0x41, 0x56, 0x45, 0x4F, 0x50, 0x54]

/-- `_send_option(option, data=b"")` (`python_nbd_client.py` lines
242–249). -/
def sendOption (option : Nat) (data : List Nat) (s : NbdClientState) : NbdClientState :=
  { sendall (ihaveoptBytes ++ beBytes 4 option ++ beBytes 4 data.length ++ data) s
    with lastSentOption := some option }

/-- `_disconnect()` (`python_nbd_client.py` lines 531–536): a DISC
request in the transmission phase, an ABORT option otherwise. -/
def disconnect (s : NbdClientState) : NbdClientState :=
  if s.transmissionPhase then sendRequestHeader NBD_CMD_DISC 0 0 s
  else sendOption NBD_OPT_ABORT [] s

/-- `close()` (`python_nbd_client.py` lines 213–222): flush if there
are unflushed writes, then, if not already closed, disconnect and mark
the client closed.  No other field is touched; in particular the
underlying socket object is never closed. -/
def close (s : NbdClientState) : NbdResult Unit :=
  match (if s.flushed then Except.ok ((), s) else flush s) with
  | .error e => .error e
  | .ok (_, s1) =>
    if s1.closed then .ok ((), s1)
    else .ok ((), { disconnect s1 with closed := true })

/-- A client in the transmission phase with no pending reply data. -/
def idleClient : NbdClientState :=
  { flags := 0, handle := 0, flushed := true, closed := false,
    transmissionPhase := true, lastSentOption := none, incoming := [], sent := [] }

/-- A client whose server has queued a successful 512-byte reply to the
next request (which will carry handle 1). -/
def readyClient : NbdClientState :=
  { idleClient with
    incoming := beBytes 4 NBD_SIMPLE_REPLY_MAGIC ++ beBytes 4 0 ++ beBytes 8 1
      ++ List.replicate 512 0xAB }

/-- The state `readyClient` reaches after a successful `read(0, 512)`. -/
def readyClientAfterRead : NbdClientState :=
  { flags := 0, handle := 1, flushed := true, closed := false,
    transmissionPhase := true, lastSentOption := none, incoming := [],
    sent := requestHeader NBD_CMD_READ 1 0 512 }

/-- A client whose server advertised `SEND_FLUSH` and has queued a
successful empty reply to the next request, and which has no unflushed
write (`flushed = true`). -/
def flushIdleClient : NbdClientState :=
  { flags := NBD_FLAG_SEND_FLUSH, handle := 0, flushed := true, closed := false,
    transmissionPhase := true, lastSentOption := none,
    incoming := beBytes 4 NBD_SIMPLE_REPLY_MAGIC ++ beBytes 4 0 ++ beBytes 8 1,
    sent := [] }

/-- The state `flushIdleClient` reaches after `flush()`: the FLUSH
request header has been sent even though nothing was written since the
last flush. -/
def flushIdleClientAfter : NbdClientState :=
  { flags := NBD_FLAG_SEND_FLUSH, handle := 1, flushed := true, closed := false,
    transmissionPhase := true, lastSentOption := none,
    incoming := [], sent := requestHeader NBD_CMD_FLUSH 1 0 0 }

/-- A client with `flags = 0` (no `SEND_FLUSH`). -/
def noFlushClient : NbdClientState :=
  { flags := 0, handle := 3, flushed := false, closed := false,
    transmissionPhase := true, lastSentOption := none, incoming := [], sent := [] }

/-- A client, with no unflushed write and a queued 512-byte reply for
handle 2, on which `close()` is called and then `read(0, 512)` is
attempted. -/
def staleClient : NbdClientState :=
  { flags := 0, handle := 0, flushed := true, closed := false,
    transmissionPhase := true, lastSentOption := none,
    incoming := beBytes 4 NBD_SIMPLE_REPLY_MAGIC ++ beBytes 4 0 ++ beBytes 8 2
      ++ List.replicate 512 0xAB,
    sent := [] }

/-- The state `staleClient` reaches after `close()`. -/
def staleClientClosed : NbdClientState :=
  { sendRequestHeader NBD_CMD_DISC 0 0 staleClient with closed := true }

/-- The state `staleClientClosed` reaches after the post-close
`read(0, 512)`. -/
def staleClientAfterRead : NbdClientState :=
  { flags := 0, handle := 2, flushed := true, closed := true,
    transmissionPhase := true, lastSentOption := none, incoming := [],
    sent := requestHeader NBD_CMD_DISC 1 0 0 ++ requestHeader NBD_CMD_READ 2 0 512 }

/-- `staleClient` outside the transmission phase (handshake phase). -/
def staleOptClient : NbdClientState := { staleClient with transmissionPhase := false }

def dirtyEofClient : NbdClientState := { noFlushClient with flags := NBD_FLAG_SEND_FLUSH }

/-- The state at the point `close()` on `dirtyEofClient` raises: the
FLUSH request went out, then the reply read hit end of file. -/
def dirtyEofClientAfter : NbdClientState :=
  { noFlushClient with
    flags := NBD_FLAG_SEND_FLUSH,
    handle := 4,
    sent := requestHeader NBD_CMD_FLUSH 4 0 0 }

/-! ## `backup.py` — per-VM backup lifecycle -/

/-- A filesystem as the list of existing paths, each path a list of
components relative to the backup root. -/
abbrev Fs : Type := List (List String)

/-- `Path.mkdir`. -/
def mkdir (p : List String) (fs : Fs) : Fs := p :: fs

/-- Whether path `p` equals `dir` or lies beneath it. -/
def isUnder (dir p : List String) : Bool := decide (dir = p.take dir.length)

/-- `shutil.rmtree(dir)`: remove `dir` and everything beneath it. -/
def rmtree (dir : List String) (fs : Fs) : Fs :=
  fs.filter (fun p => !(isUnder dir p))

/-- `BackupConfig.backup(vm_uuid)` (`backup.py` lines 255–280): create
`<backup_dir>/<vm_uuid>` and the timestamped backup directory beneath
it, then run the body of the `try` block (enable CBT, snapshot, save
metadata, per-VDI backups, cleanup — modelled as the arbitrary
effectful `body`, which returns the new filesystem or raises carrying
the exception message and the filesystem at the raise); on any
exception, `shutil.rmtree` the backup directory and re-raise. -/
def backup (vmUuid timestamp : String) (body : Fs → Except (String × Fs) Fs)
    (fs : Fs) : Except (String × Fs) (String × Fs) :=
  match body (mkdir [vmUuid, timestamp] (mkdir [vmUuid] fs)) with
  | .ok fs2 => .ok (timestamp, fs2)
  | .error (e, fs2) => .error (e, rmtree [vmUuid, timestamp] fs2)

/-- The management-API calls `_vm_backup` makes, in order. -/
inductive ApiCall where
  | vdiBackup (vdi : Nat)
  | vmDestroy (vm : Nat)
  | dataDestroy (vdi : Nat)
  | vdiDestroy (vdi : Nat)
deriving DecidableEq, Repr

/-- `_vm_backup(vm_snapshot, backup_dir)` (`backup.py` lines 230–247)
as the trace of management-API calls on its success path: back up each
VDI of the snapshot, destroy the VM snapshot, then clean up each VDI —
`VDI.data_destroy` if CBT is enabled on it, `VDI.destroy` otherwise.
`vdis` lists the snapshot's VDIs paired with their `cbt_enabled`
attribute. -/
def vm_backup_trace (vm : Nat) (vdis : List (Nat × Bool)) : List ApiCall :=
  vdis.map (fun v => ApiCall.vdiBackup v.1)
    ++ [ApiCall.vmDestroy vm]
    ++ vdis.map (fun v => if v.2 then ApiCall.dataDestroy v.1 else ApiCall.vdiDestroy v.1)

set_option maxRecDepth 100000

theorem covers_nil (j : Nat) : ¬ covers [] j := by
  simp [covers]

theorem covers_cons (e : Nat × Nat) (E : List (Nat × Nat)) (j : Nat) :
    covers (e :: E) j ↔ (e.1 ≤ j ∧ j < e.1 + e.2) ∨ covers E j := by
  simp [covers, List.mem_cons, or_and_right, exists_or, exists_eq_left]

theorem goBlocks_mem (bits : List Bool) :
    ∀ (i lo : Nat) (st : Option (Nat × Nat)), stOk st i lo →
    ∀ e ∈ goBlocks bits i st, lo ≤ e.1 ∧ 1 ≤ e.2 := by
  induction bits with
  | nil =>
    intro i lo st hst e he
    rcases st with _ | ⟨s, l⟩
    · simp [goBlocks] at he
    · simp [goBlocks] at he
      rcases hst with ⟨h1, h2, h3⟩
      simp [he, h1, h2]
  | cons b rest ih =>
    intro i lo st hst e he
    rcases st with _ | ⟨s, l⟩ <;> cases b
    · exact ih (i + 1) lo none (by simpa [stOk] using Nat.le_succ_of_le hst) e
        (by simpa [goBlocks] using he)
    · exact ih (i + 1) lo (some (i, 1)) (by simp [stOk] at hst ⊢; omega) e
        (by simpa [goBlocks] using he)
    · rcases hst with ⟨h1, h2, h3⟩
      simp [goBlocks] at he
      rcases he with he | he
      · simp [he, h1, h2]
      · have := ih (i + 1) (i + 1) none (by simp [stOk]) e he
        exact ⟨by omega, this.2⟩
    · rcases hst with ⟨h1, h2, h3⟩
      exact ih (i + 1) lo (some (s, l + 1)) (by simp [stOk]; omega) e
        (by simpa [goBlocks] using he)

theorem goBlocks_pairwise (bits : List Bool) :
    ∀ (i lo : Nat) (st : Option (Nat × Nat)), stOk st i lo →
    (goBlocks bits i st).Pairwise (fun a b => a.1 + a.2 ≤ b.1) := by
  induction bits with
  | nil =>
    intro i lo st _
    rcases st with _ | ⟨s, l⟩ <;> simp [goBlocks]
  | cons b rest ih =>
    intro i lo st hst
    rcases st with _ | ⟨s, l⟩ <;> cases b
    · rw [show goBlocks (false :: rest) i none = goBlocks rest (i + 1) none from rfl]
      exact ih (i + 1) lo none (by simp [stOk] at hst ⊢; omega)
    · rw [show goBlocks (true :: rest) i none
          = goBlocks rest (i + 1) (some (i, 1)) from rfl]
      exact ih (i + 1) lo (some (i, 1)) (by simp [stOk] at hst ⊢; omega)
    · rcases hst with ⟨h1, h2, h3⟩
      rw [show goBlocks (false :: rest) i (some (s, l))
          = (s, l) :: goBlocks rest (i + 1) none from rfl]
      refine List.pairwise_cons.2 ⟨?_, ih (i + 1) (i + 1) none (by simp [stOk])⟩
      intro e he
      obtain ⟨hm1, hm2⟩ := goBlocks_mem rest (i + 1) (i + 1) none (by simp [stOk]) e he
      show s + l ≤ e.1
      omega
    · rcases hst with ⟨h1, h2, h3⟩
      rw [show goBlocks (true :: rest) i (some (s, l))
          = goBlocks rest (i + 1) (some (s, l + 1)) from rfl]
      exact ih (i + 1) lo (some (s, l + 1)) (by simp [stOk]; omega)

theorem goBlocks_covers (bits : List Bool) :
    ∀ (i : Nat) (st : Option (Nat × Nat)),
    (∀ s l, st = some (s, l) → s + l = i) →
    ∀ j, covers (goBlocks bits i st) j ↔
      (stCovers st i j ∨ (i ≤ j ∧ bits.getD (j - i) false = true)) := by
  induction bits with
  | nil =>
    intro i st hst j
    rcases st with _ | ⟨s, l⟩
    · simp [goBlocks, covers, stCovers]
    · have hsl := hst s l rfl
      simp [goBlocks, covers, stCovers]
      omega
  | cons b rest ih =>
    intro i st hst j
    rcases st with _ | ⟨s, l⟩ <;> cases b
    · rw [show goBlocks (false :: rest) i none = goBlocks rest (i + 1) none from rfl,
        ih (i + 1) none (by simp) j]
      simp only [stCovers, false_or]
      rcases Nat.lt_or_ge j i with hj | hj
      · have h1 : ¬ i ≤ j := by omega
        have h2 : ¬ i + 1 ≤ j := by omega
        simp [h1, h2]
      · rcases Nat.eq_or_lt_of_le hj with hj | hj
        · have h0 : j - i = 0 := by omega
          have h2 : ¬ i + 1 ≤ j := by omega
          rw [h0]
          simp [h2, ← hj]
        · have h0 : j - i = (j - (i + 1)) + 1 := by omega
          rw [h0]
          simp only [List.getD_cons_succ]
          constructor
          · rintro ⟨hle, hx⟩
            exact ⟨by omega, hx⟩
          · rintro ⟨hle, hx⟩
            exact ⟨by omega, hx⟩
    · rw [show goBlocks (true :: rest) i none
          = goBlocks rest (i + 1) (some (i, 1)) from rfl,
        ih (i + 1) (some (i, 1)) (by intro s l h; simp at h; omega) j]
      simp only [stCovers, false_or]
      rcases Nat.lt_or_ge j i with hj | hj
      · have h1 : ¬ i ≤ j := by omega
        have h2 : ¬ i + 1 ≤ j := by omega
        simp [h1, h2]
        try omega
      · rcases Nat.eq_or_lt_of_le hj with hj | hj
        · have h0 : j - i = 0 := by omega
          have h2 : ¬ i + 1 ≤ j := by omega
          rw [h0]
          simp [h2]
          try omega
        · have h0 : j - i = (j - (i + 1)) + 1 := by omega
          rw [h0]
          simp only [List.getD_cons_succ]
          constructor
          · rintro (⟨hle, hlt⟩ | ⟨hle, hx⟩)
            · exact absurd hlt (by omega)
            · exact ⟨by omega, hx⟩
          · rintro ⟨hle, hx⟩
            exact Or.inr ⟨by omega, hx⟩
    · have hsl := hst s l rfl
      rw [show goBlocks (false :: rest) i (some (s, l))
            = (s, l) :: goBlocks rest (i + 1) none from rfl,
        covers_cons, ih (i + 1) none (by simp) j]
      simp only [stCovers, false_or, hsl]
      rcases Nat.lt_or_ge j i with hj | hj
      · have h1 : ¬ i ≤ j := by omega
        have h2 : ¬ i + 1 ≤ j := by omega
        simp [h1, h2]
      · rcases Nat.eq_or_lt_of_le hj with hj | hj
        · have h0 : j - i = 0 := by omega
          have h2 : ¬ i + 1 ≤ j := by omega
          rw [h0]
          simp [h2, ← hj]
        · have h0 : j - i = (j - (i + 1)) + 1 := by omega
          rw [h0]
          simp only [List.getD_cons_succ]
          constructor
          · rintro (⟨hle, hlt⟩ | ⟨hle, hx⟩)
            · exact absurd hlt (by omega)
            · exact Or.inr ⟨by omega, hx⟩
          · rintro (⟨hle, hlt⟩ | ⟨hle, hx⟩)
            · exact absurd hlt (by omega)
            · exact Or.inr ⟨by omega, hx⟩
    · have hsl := hst s l rfl
      rw [show goBlocks (true :: rest) i (some (s, l))
            = goBlocks rest (i + 1) (some (s, l + 1)) from rfl,
        ih (i + 1) (some (s, l + 1)) (by intro s' l' h; simp at h; omega) j]
      simp only [stCovers, false_or]
      rcases Nat.lt_or_ge j i with hj | hj
      · have h1 : ¬ i ≤ j := by omega
        have h2 : ¬ i + 1 ≤ j := by omega
        simp [h1, h2]
        omega
      · rcases Nat.eq_or_lt_of_le hj with hj | hj
        · have h0 : j - i = 0 := by omega
          have h2 : ¬ i + 1 ≤ j := by omega
          rw [h0]
          simp [h2]
          omega
        · have h0 : j - i = (j - (i + 1)) + 1 := by omega
          rw [h0]
          simp only [List.getD_cons_succ]
          constructor
          · rintro (⟨hle, hlt⟩ | ⟨hle, hx⟩)
            · exact absurd hlt (by omega)
            · exact Or.inr ⟨by omega, hx⟩
          · rintro (⟨hle, hlt⟩ | ⟨hle, hx⟩)
            · exact absurd hlt (by omega)
            · exact Or.inr ⟨by omega, hx⟩

theorem bitmapToExtentsGo_eq (bits : List Bool) :
    ∀ (i : Nat) (st : Option (Nat × Nat)),
    bitmapToExtentsGo bits i st
      = (goBlocks bits i st).map (fun e => (e.1 * BLOCK_SIZE, e.2 * BLOCK_SIZE)) := by
  induction bits with
  | nil =>
    intro i st
    rcases st with _ | ⟨s, l⟩ <;> simp [bitmapToExtentsGo, goBlocks]
  | cons b rest ih =>
    intro i st
    rcases st with _ | ⟨s, l⟩ <;> cases b <;>
      simp [bitmapToExtentsGo, goBlocks, ih]

theorem bitmap_to_extents_eq_map (bits : List Bool) :
    bitmap_to_extents bits
      = (goBlocks bits 0 none).map (fun e => (e.1 * BLOCK_SIZE, e.2 * BLOCK_SIZE)) :=
  bitmapToExtentsGo_eq bits 0 none

/-- C2: for every CBT bitmap `B` (given as its decoded bytes), the
extent sequence `E = get_extents(B, merge_adjacent_extents=False)`
(i) is produced without error, and consists of extents whose offset and
length are both multiples of 65536 and whose length is positive;
(ii) is strictly increasing and non-overlapping (each extent ends at or
before the start of the next, and lengths are positive, so offsets
strictly increase); (iii) covers exactly the 64 KiB block indices whose
bit is 1 in `B` (bits enumerated MSB-first per byte); and (iv) on the
two-byte bitmap `0b10110000 0b00000000` the sequence is
`[(0, 65536), (131072, 131072)]`. -/
theorem get_extents_no_merge_spec (bytes : List Nat) :
    get_extents bytes false = Except.ok (bitmap_to_extents (bitArray bytes)) ∧
    (∀ e ∈ bitmap_to_extents (bitArray bytes),
      e.1 % BLOCK_SIZE = 0 ∧ e.2 % BLOCK_SIZE = 0 ∧ 0 < e.2) ∧
    (bitmap_to_extents (bitArray bytes)).Pairwise (fun a b => a.1 + a.2 ≤ b.1) ∧
    (∀ j : Nat,
      (∃ e ∈ bitmap_to_extents (bitArray bytes),
          e.1 ≤ BLOCK_SIZE * j ∧ BLOCK_SIZE * j + BLOCK_SIZE ≤ e.1 + e.2)
        ↔ (bitArray bytes).getD j false = true) ∧
    get_extents [0xB0, 0x00] false = Except.ok [(0, 65536), (131072, 131072)] := by
  refine ⟨rfl, ?_, ?_, ?_, by rfl⟩
  · intro e he
    rw [bitmap_to_extents_eq_map] at he
    rcases List.mem_map.1 he with ⟨a, ha, rfl⟩
    obtain ⟨-, h2⟩ := goBlocks_mem (bitArray bytes) 0 0 none (by simp [stOk]) a ha
    refine ⟨Nat.mul_mod_left _ _, Nat.mul_mod_left _ _, ?_⟩
    have : 0 < BLOCK_SIZE := by decide
    exact Nat.mul_pos h2 this
  · rw [bitmap_to_extents_eq_map]
    refine List.Pairwise.map _ ?_
      (goBlocks_pairwise (bitArray bytes) 0 0 none (by simp [stOk]))
    intro a b hab
    show a.1 * BLOCK_SIZE + a.2 * BLOCK_SIZE ≤ b.1 * BLOCK_SIZE
    simp only [BLOCK_SIZE]
    omega
  · intro j
    have hcov := goBlocks_covers (bitArray bytes) 0 none (by simp) j
    simp only [stCovers, false_or, Nat.sub_zero, Nat.zero_le, true_and] at hcov
    rw [← hcov]
    unfold covers
    constructor
    · rintro ⟨e, he, h1, h2⟩
      rw [bitmap_to_extents_eq_map] at he
      rcases List.mem_map.1 he with ⟨a, ha, rfl⟩
      refine ⟨a, ha, ?_, ?_⟩
      · simp only [BLOCK_SIZE] at h1 h2 ⊢
        omega
      · simp only [BLOCK_SIZE] at h1 h2 ⊢
        omega
    · rintro ⟨a, ha, h1, h2⟩
      refine ⟨(a.1 * BLOCK_SIZE, a.2 * BLOCK_SIZE), ?_, ?_, ?_⟩
      · rw [bitmap_to_extents_eq_map]
        exact List.mem_map_of_mem _ ha
      · simp only [BLOCK_SIZE]
        omega
      · simp only [BLOCK_SIZE]
        omega

/-- Witness for C2 at the bitmap `0b10110000 0b00000000`: its first
extent `(0, 65536)` is aligned and nonempty, and block 2 (byte offset
131072) is covered, matching bit 2 of the bitmap. -/
theorem get_extents_no_merge_spec_witness :
    ((0, 65536) ∈ bitmap_to_extents (bitArray [0xB0, 0x00]) ∧
      (0 : Nat) % BLOCK_SIZE = 0 ∧ (65536 : Nat) % BLOCK_SIZE = 0 ∧ (0 : Nat) < 65536) ∧
    ((bitArray [0xB0, 0x00]).getD 2 false = true) := by
  have h := get_extents_no_merge_spec [0xB0, 0x00]
  have hm : (0, 65536) ∈ bitmap_to_extents (bitArray [0xB0, 0x00]) := by decide
  refine ⟨⟨hm, ?_⟩, ?_⟩
  · simpa using h.2.1 (0, 65536) hm
  · refine (h.2.2.2.1 2).1 ?_
    refine ⟨(131072, 131072), by decide, by decide, by decide⟩

theorem goBlocks_all_false (bits : List Bool) :
    (∀ b ∈ bits, b = false) → ∀ i, goBlocks bits i none = [] := by
  induction bits with
  | nil => intro _ i; rfl
  | cons b rest ih =>
    intro h i
    have hb : b = false := h b (List.mem_cons_self b rest)
    subst hb
    rw [show goBlocks (false :: rest) i none = goBlocks rest (i + 1) none from rfl]
    exact ih (fun x hx => h x (List.mem_cons_of_mem _ hx)) (i + 1)

/-- C10: on any bitmap with no set bit, `_bitmap_to_extents` yields
nothing, so the generator handed to `_merge_adjacent_extents` is empty;
the `if not extents` guard does not catch this (a generator object is
always truthy), `next` is called on the exhausted generator, and
consuming `get_extents(merge_adjacent_extents=True)` raises a
`RuntimeError` (PEP 479) instead of producing the empty sequence the
doctest of `_merge_adjacent_extents` promises for empty input. -/
theorem get_extents_merge_empty_raises (bytes : List Nat)
    (h : ∀ b ∈ bitArray bytes, b = false) :
    get_extents bytes true
      = Except.error "RuntimeError: generator raised StopIteration" := by
  have h0 : bitmap_to_extents (bitArray bytes) = [] := by
    rw [bitmap_to_extents, bitmapToExtentsGo_eq, goBlocks_all_false (bitArray bytes) h 0]
    rfl
  show mergeAdjacentExtents (bitmap_to_extents (bitArray bytes)) = _
  rw [h0]
  rfl

/-- Witness for C10: the two-byte all-zero bitmap. -/
theorem get_extents_merge_empty_raises_witness :
    (∀ b ∈ bitArray [0, 0], b = false) ∧
      get_extents [0, 0] true
        = Except.error "RuntimeError: generator raised StopIteration" :=
  ⟨by decide, get_extents_merge_empty_raises [0, 0] (by decide)⟩

/-- C1 (evaluation of the defect): every call of
`incremental_vdi_backup` fails with the `TypeError` raised by the
argument-less `bitmap.get_extents()` call, before any extent is
streamed, so no backup file with the source VDI's content is ever
produced. -/
theorem incremental_vdi_backup_type_error (disk : List Nat) (blockSize : Nat)
    (bitmapBytes baseFile : List Nat) :
    incremental_vdi_backup disk blockSize bitmapBytes baseFile
      = Except.error
          "TypeError: get_extents() missing 1 required positional argument merge_adjacent_extents" :=
  rfl

/-- The chunks fed to the hasher concatenate back to exactly the file
contents: the chunked MD5 is the MD5 of the whole file. -/
theorem chunks64k_flatten (file : List Nat) : (chunks64k file).flatten = file := by
  have key : ∀ n (data : List Nat), data.length ≤ n → (chunks64k data).flatten = data := by
    intro n
    induction n with
    | zero =>
      intro data h
      have hd : data = [] := List.length_eq_zero.1 (Nat.le_zero.1 h)
      subst hd
      simp [chunks64k]
    | succ n ih =>
      intro data h
      match data with
      | [] => simp [chunks64k]
      | x :: xs =>
        rw [chunks64k]
        simp only [List.flatten_cons]
        have hlen : (xs.drop 65535).length ≤ n := by
          simp only [List.length_cons] at h
          simp only [List.length_drop]
          omega
        rw [ih (xs.drop 65535) hlen]
        rw [show xs.drop 65535 = (x :: xs).drop 65536 from rfl]
        exact List.take_append_drop 65536 (x :: xs)
  exact key file.length file (Nat.le_refl _)

/-- C3 (evaluation of the defect): the checksum-verification step never
completes; every call of `_compare_checksums` raises `AttributeError`
because it calls `md5sum.md5sum`, while the module defines only
`file_checksum` (and `vdi_checksum`), so neither the local MD5 nor the
equality assertion is ever evaluated. -/
theorem compare_checksums_attribute_error {α : Type} (init : α)
    (upd : α → List Nat → α) (hex : α → String)
    (serverChecksum : String) (backupFile : List Nat) :
    compare_checksums init upd hex serverChecksum backupFile
      = Except.error "AttributeError: module md5sum has no attribute md5sum" := by
  rfl

theorem recvall_ok_length (n : Nat) (s : NbdClientState) (d : List Nat)
    (s' : NbdClientState) (h : recvall n s = .ok (d, s')) : d.length = n := by
  unfold recvall at h
  split at h
  · cases h
    simp [List.length_take]
    omega
  · simp at h

theorem parseSimpleReply_ok_length (n : Nat) (s : NbdClientState) (d : List Nat)
    (s' : NbdClientState) (h : parseSimpleReply n s = .ok (d, s')) : d.length = n := by
  unfold parseSimpleReply at h
  split at h
  · simp at h
  · split at h
    · split at h
      · simp at h
      · split at h
        · simp at h
        · rename_i data s3 hrec
          split at h
          · cases h
            exact recvall_ok_length _ _ _ _ hrec
          · simp at h
    · simp at h

theorem parseSimpleReply_ok_handle (n : Nat) (s : NbdClientState) (d : List Nat)
    (s' : NbdClientState) (h : parseSimpleReply n s = .ok (d, s')) :
    beVal ((s.incoming.take 16).drop 8) = s.handle := by
  unfold parseSimpleReply at h
  split at h
  · simp at h
  · rename_i reply s1 hrec
    have hpair : reply = s.incoming.take 16 ∧ s1 = { s with incoming := s.incoming.drop 16 } := by
      unfold recvall at hrec
      split at hrec
      · cases hrec
        exact ⟨rfl, rfl⟩
      · simp at hrec
    obtain ⟨hr, hs1⟩ := hpair
    subst hr
    subst hs1
    split at h
    · split at h
      · simp at h
      · rename_i u s2 hch
        unfold checkHandle at hch
        split at hch
        · rename_i hh
          exact hh
        · simp at hch
    · simp at h

/-- Every branch of `_parse_simple_reply` only consumes incoming bytes:
the state it leaves behind — on return or on raise — differs from the
input state only in `incoming`. -/
theorem parseSimpleReply_resultState (n : Nat) (s : NbdClientState) :
    ∃ inc, resultState (parseSimpleReply n s) = { s with incoming := inc } := by
  unfold parseSimpleReply recvall checkHandle
  by_cases h16 : 16 ≤ s.incoming.length
  · simp only [if_pos h16]
    by_cases hm : beVal (List.take 4 (List.take 16 s.incoming)) = NBD_SIMPLE_REPLY_MAGIC
    · simp only [if_pos hm]
      by_cases hh : beVal (List.drop 8 (List.take 16 s.incoming)) = s.handle
      · simp only [if_pos hh]
        by_cases hn : n ≤ (List.drop 16 s.incoming).length
        · simp only [if_pos hn]
          by_cases herr : beVal (List.take 4 (List.drop 4 (List.take 16 s.incoming))) = 0
          · simp only [if_pos herr]
            exact ⟨_, rfl⟩
          · simp only [if_neg herr]
            exact ⟨_, rfl⟩
        · simp only [if_neg hn]
          exact ⟨_, rfl⟩
      · simp only [if_neg hh]
        exact ⟨_, rfl⟩
    · simp only [if_neg hm]
      exact ⟨_, rfl⟩
  · simp only [if_neg h16]
    exact ⟨_, rfl⟩

/-- C4: `read(offset, length)` fails synchronously with the
`_check_alignment` `ValueError` — leaving the client state, including
the bytes sent on the socket, unchanged — whenever `offset` or `length`
is not a multiple of 512; and any successful `read` returns a buffer of
exactly `length` bytes. -/
theorem read_alignment_spec (s : NbdClientState) (offset length : Nat) :
    (offset % 512 ≠ 0 ∨ length % 512 ≠ 0 →
      ∃ msg, read offset length s = Except.error (msg, s)) ∧
    (∀ data s', read offset length s = Except.ok (data, s') → data.length = length) := by
  constructor
  · intro h
    by_cases h1 : offset % 512 = 0
    · have h2 : ¬ length % 512 = 0 := by tauto
      exact ⟨alignmentError "length" length, by simp [read, h1, h2]⟩
    · exact ⟨alignmentError "offset" offset, by simp [read, h1]⟩
  · intro data s' h
    unfold read at h
    split at h
    · split at h
      · exact parseSimpleReply_ok_length _ _ _ _ h
      · simp at h
    · simp at h

/-- Witness for C4: `read(offset=513, length=512)` raises with the
state unchanged (no bytes sent), and an aligned `read(0, 512)` on
`readyClient` returns exactly 512 bytes. -/
theorem read_alignment_spec_witness :
    ((513 : Nat) % 512 ≠ 0 ∨ (512 : Nat) % 512 ≠ 0) ∧
    (∃ msg, read 513 512 idleClient = Except.error (msg, idleClient)) ∧
    (List.replicate 512 0xAB).length = 512 := by
  refine ⟨Or.inl (by decide),
    (read_alignment_spec idleClient 513 512).1 (Or.inl (by decide)), ?_⟩
  have hread : read 0 512 readyClient
      = Except.ok (List.replicate 512 0xAB, readyClientAfterRead) := by rfl
  exact (read_alignment_spec readyClient 0 512).2 _ _ hread

/-- C5 counterexample: on a client with no write since the last flush
(`flushed = true`) whose server advertised `SEND_FLUSH`, `flush()` is
not a no-op: it sends a FLUSH request (28 bytes) on the socket. -/
theorem flush_no_write_still_sends :
    flushIdleClient.flushed = true ∧
    flush flushIdleClient = Except.ok ((), flushIdleClientAfter) ∧
    flushIdleClientAfter.sent ≠ flushIdleClient.sent := by
  refine ⟨rfl, by rfl, by decide⟩

/-- C5 (amended): `flush()` is a no-op — it sends nothing and only
marks the client flushed — precisely when the server did not advertise
`SEND_FLUSH`; otherwise it sends a FLUSH request and waits for the
reply, regardless of whether there has been a write since the last
flush. -/
theorem flush_spec_amended (s : NbdClientState) :
    (s.flags &&& NBD_FLAG_SEND_FLUSH = 0 →
      flush s = Except.ok ((), { s with flushed := true })) ∧
    (s.flags &&& NBD_FLAG_SEND_FLUSH ≠ 0 →
      (resultState (flush s)).sent
        = s.sent ++ requestHeader NBD_CMD_FLUSH (s.handle + 1) 0 0) := by
  constructor
  · intro h
    simp [flush, needFlush, h]
  · intro h
    have hnf : ¬ (needFlush s = false) := by
      simp [needFlush]
      omega
    unfold flush
    rw [if_neg hnf]
    obtain ⟨inc, hst⟩ := parseSimpleReply_resultState 0 (sendRequestHeader NBD_CMD_FLUSH 0 0 s)
    cases hp : parseSimpleReply 0 (sendRequestHeader NBD_CMD_FLUSH 0 0 s) with
    | error e =>
      rw [hp] at hst
      show e.2.sent = _
      rw [show resultState (Except.error e :
            NbdResult (List Nat)) = e.2 from by
          obtain ⟨m, t⟩ := e
          rfl] at hst
      rw [hst]
      rfl
    | ok p =>
      rw [hp] at hst
      obtain ⟨d, t⟩ := p
      show ({ t with flushed := true } : NbdClientState).sent = _
      rw [show resultState (Except.ok ((d, t) : List Nat × NbdClientState)) = t from rfl] at hst
      rw [show ({ t with flushed := true } : NbdClientState).sent = t.sent from rfl, hst]
      rfl

/-- Witness for the amended C5, at a client without `SEND_FLUSH`
(no-op branch) and at `flushIdleClient` (request-sending branch). -/
theorem flush_spec_amended_witness :
    (noFlushClient.flags &&& NBD_FLAG_SEND_FLUSH = 0 ∧
      flush noFlushClient = Except.ok ((), { noFlushClient with flushed := true })) ∧
    (flushIdleClient.flags &&& NBD_FLAG_SEND_FLUSH ≠ 0 ∧
      (resultState (flush flushIdleClient)).sent
        = flushIdleClient.sent ++ requestHeader NBD_CMD_FLUSH (flushIdleClient.handle + 1) 0 0) :=
  ⟨⟨by decide, (flush_spec_amended noFlushClient).1 (by decide)⟩,
    ⟨by decide, (flush_spec_amended flushIdleClient).2 (by decide)⟩⟩

theorem disconnect_flushed (s : NbdClientState) : (disconnect s).flushed = s.flushed := by
  unfold disconnect sendRequestHeader sendall sendOption
  split <;> rfl

theorem disconnect_closed (s : NbdClientState) : (disconnect s).closed = s.closed := by
  unfold disconnect sendRequestHeader sendall sendOption
  split <;> rfl

theorem flush_ok_flushed (s : NbdClientState) (u : Unit) (t : NbdClientState)
    (h : flush s = .ok (u, t)) : t.flushed = true := by
  unfold flush at h
  split at h
  · cases h
    rfl
  · split at h
    · simp at h
    · cases h
      rfl

theorem close_ok_state (s : NbdClientState) (s' : NbdClientState)
    (h : close s = .ok ((), s')) : s'.flushed = true ∧ s'.closed = true := by
  unfold close at h
  by_cases hf : s.flushed
  · rw [if_pos hf] at h
    change (if s.closed = true then Except.ok ((), s)
        else Except.ok ((), { disconnect s with closed := true })) = Except.ok ((), s') at h
    by_cases hc : s.closed
    · rw [if_pos hc] at h
      cases h
      exact ⟨hf, hc⟩
    · rw [if_neg hc] at h
      cases h
      refine ⟨?_, rfl⟩
      show (disconnect s).flushed = true
      rw [disconnect_flushed]
      exact hf
  · rw [if_neg hf] at h
    cases hfl : flush s with
    | error e =>
      rw [hfl] at h
      simp at h
    | ok p =>
      obtain ⟨u, t⟩ := p
      rw [hfl] at h
      have ht : t.flushed = true := flush_ok_flushed s u t hfl
      change (if t.closed = true then Except.ok ((), t)
          else Except.ok ((), { disconnect t with closed := true })) = Except.ok ((), s') at h
      by_cases hc : t.closed
      · rw [if_pos hc] at h
        cases h
        exact ⟨ht, hc⟩
      · rw [if_neg hc] at h
        cases h
        refine ⟨?_, rfl⟩
        show (disconnect t).flushed = true
        rw [disconnect_flushed]
        exact ht

/-- C6 (amended): `close()` flushes first if there are unflushed
writes (propagating a flush failure), sends DISC when in the
transmission phase and the ABORT option otherwise, and marks the client
closed; it is idempotent (a second call performs no further actions and
returns the same state).  It does not, however, release the socket —
no field but `closed` records the close — and, as the counterexample
shows, a closed client does not reject further operations. -/
theorem close_spec_amended (s : NbdClientState) :
    (∀ s', close s = Except.ok ((), s') → close s' = Except.ok ((), s')) ∧
    (s.flushed = true → s.closed = false → s.transmissionPhase = true →
      close s = Except.ok ((), { sendRequestHeader NBD_CMD_DISC 0 0 s with closed := true })) ∧
    (s.flushed = true → s.closed = false → s.transmissionPhase = false →
      close s = Except.ok ((), { sendOption NBD_OPT_ABORT [] s with closed := true })) ∧
    (s.flushed = false → ∀ e, flush s = Except.error e → close s = Except.error e) ∧
    (s.flushed = false → ∀ t, flush s = Except.ok ((), t) → close s = close t) := by
  refine ⟨?_, ?_, ?_, ?_, ?_⟩
  · intro s' h
    obtain ⟨hf', hc'⟩ := close_ok_state s s' h
    simp [close, hf', hc']
  · intro h1 h2 h3
    simp [close, disconnect, h1, h2, h3]
  · intro h1 h2 h3
    simp [close, disconnect, h1, h2, h3]
  · intro hf e hfl
    simp [close, hf, hfl]
  · intro hf t hfl
    have ht : t.flushed = true := flush_ok_flushed s () t hfl
    simp [close, hf, hfl, ht]

/-- C6 counterexample: after `close()` the client does NOT reject
further operations — `read(0, 512)` on the closed client still sends a
READ request on the (never released) socket and returns data. -/
theorem close_then_read_not_rejected :
    close staleClient = Except.ok ((), staleClientClosed) ∧
    staleClientClosed.closed = true ∧
    read 0 512 staleClientClosed
      = Except.ok (List.replicate 512 0xAB, staleClientAfterRead) := by
  refine ⟨by rfl, rfl, by rfl⟩

/-- Witness for the amended C6: on `staleClient`, close succeeds,
closing again is a no-op, and the DISC branch applies; on a
non-transmission-phase client the ABORT branch applies; on a dirty
client with an EOF-failing flush the error propagates. -/
theorem close_spec_amended_witness :
    (close staleClientClosed = Except.ok ((), staleClientClosed)) ∧
    (close staleClient
      = Except.ok ((), { sendRequestHeader NBD_CMD_DISC 0 0 staleClient with closed := true })) ∧
    (close staleOptClient
      = Except.ok ((), { sendOption NBD_OPT_ABORT [] staleOptClient with closed := true })) ∧
    (close dirtyEofClient = Except.error ("NBDEOFError", dirtyEofClientAfter)) ∧
    (close noFlushClient = close { noFlushClient with flushed := true }) := by
  refine ⟨?_, ?_, ?_, ?_, ?_⟩
  · exact (close_spec_amended staleClient).1 staleClientClosed (by rfl)
  · exact (close_spec_amended staleClient).2.1 rfl rfl rfl
  · exact (close_spec_amended staleOptClient).2.2.1 rfl rfl rfl
  · exact (close_spec_amended dirtyEofClient).2.2.2.1 rfl _ (by rfl)
  · exact (close_spec_amended noFlushClient).2.2.2.2 rfl _ (by rfl)

/-- C7: the handle of every issued request is the client's handle
counter incremented by one — so the handles issued by one client are
strictly increasing over its lifetime — and the wire header carries
exactly that handle; a simple reply is accepted only if the handle it
carries (bytes 8–15 of the reply header) equals the handle of the last
issued request, and `_check_handle` raises
`NBDUnexpectedReplyHandleError` on any other handle. -/
theorem handle_spec (s : NbdClientState) (requestType offset length n : Nat) :
    ((sendRequestHeader requestType offset length s).handle = s.handle + 1 ∧
      (sendRequestHeader requestType offset length s).sent
        = s.sent ++ requestHeader requestType (s.handle + 1) offset length) ∧
    (∀ d s', parseSimpleReply n s = Except.ok (d, s') →
      beVal ((s.incoming.take 16).drop 8) = s.handle) ∧
    (∀ h, h ≠ s.handle →
      checkHandle h s = Except.error ("NBDUnexpectedReplyHandleError", s)) := by
  refine ⟨⟨rfl, rfl⟩, ?_, ?_⟩
  · intro d s' h
    exact parseSimpleReply_ok_handle n s d s' h
  · intro h hh
    simp [checkHandle, hh]

/-- Witness for C7: on `readyClient`, the issued request gets handle 1
and a successful reply parse implies the reply carried handle
`readyClient.handle` after the send (= 1); `_check_handle 5` on
`idleClient` (whose last handle is 0) raises. -/
theorem handle_spec_witness :
    ((sendRequestHeader NBD_CMD_READ 0 512 readyClient).handle = readyClient.handle + 1) ∧
    (beVal (((sendRequestHeader NBD_CMD_READ 0 512 readyClient).incoming.take 16).drop 8)
      = (sendRequestHeader NBD_CMD_READ 0 512 readyClient).handle) ∧
    (checkHandle 5 idleClient
      = Except.error ("NBDUnexpectedReplyHandleError", idleClient)) := by
  refine ⟨(handle_spec readyClient NBD_CMD_READ 0 512 0).1.1, ?_, ?_⟩
  · exact (handle_spec (sendRequestHeader NBD_CMD_READ 0 512 readyClient) 0 0 0 512).2.1
      (List.replicate 512 0xAB) readyClientAfterRead (by rfl)
  · exact (handle_spec idleClient 0 0 0 0).2.2 5 (by decide)

/-- C8: if any exception is raised by the body of a VM backup after the
timestamped backup directory is created, `backup` re-raises that very
exception after deleting the backup directory tree, and no path at or
under the backup directory remains in the filesystem it leaves
behind. -/
theorem backup_cleanup_on_error (vmUuid timestamp : String)
    (body : Fs → Except (String × Fs) Fs) (fs : Fs) (e : String) (fs2 : Fs)
    (h : body (mkdir [vmUuid, timestamp] (mkdir [vmUuid] fs)) = .error (e, fs2)) :
    backup vmUuid timestamp body fs = .error (e, rmtree [vmUuid, timestamp] fs2) ∧
    ∀ p ∈ rmtree [vmUuid, timestamp] fs2, isUnder [vmUuid, timestamp] p = false := by
  constructor
  · simp [backup, h]
  · intro p hp
    unfold rmtree at hp
    have := (List.mem_filter.1 hp).2
    simpa using this

/-- Witness for C8: a body that raises immediately; the backup
directory it was handed is gone from the final filesystem and the
exception is re-raised. -/
theorem backup_cleanup_on_error_witness :
    backup "vm" "ts" (fun f => Except.error ("SnapshotFailure", f)) []
      = Except.error ("SnapshotFailure",
          rmtree ["vm", "ts"] (mkdir ["vm", "ts"] (mkdir ["vm"] []))) ∧
    ∀ p ∈ rmtree ["vm", "ts"] (mkdir ["vm", "ts"] (mkdir ["vm"] [])),
      isUnder ["vm", "ts"] p = false :=
  backup_cleanup_on_error "vm" "ts" _ [] "SnapshotFailure" _ rfl

/-- C9: in the cleanup of a VM backup, the VM snapshot is destroyed
before any `data_destroy`: the trace splits as
`pre ++ [vmDestroy] ++ post` with no `data_destroy` (nor `destroy`) in
`pre`; every snapshot VDI is cleaned with `data_destroy` exactly when
CBT is enabled on it and with `destroy` otherwise. -/
theorem vm_backup_cleanup_order (vm : Nat) (vdis : List (Nat × Bool)) :
    (∃ pre post, vm_backup_trace vm vdis = pre ++ [ApiCall.vmDestroy vm] ++ post ∧
      (∀ v, ApiCall.dataDestroy v ∉ pre) ∧ (∀ v, ApiCall.vdiDestroy v ∉ pre)) ∧
    (∀ v ∈ vdis,
      (v.2 = true → ApiCall.dataDestroy v.1 ∈ vm_backup_trace vm vdis) ∧
      (v.2 = false → ApiCall.vdiDestroy v.1 ∈ vm_backup_trace vm vdis)) ∧
    (∀ x, ApiCall.dataDestroy x ∈ vm_backup_trace vm vdis → (x, true) ∈ vdis) := by
  refine ⟨?_, ?_, ?_⟩
  · refine ⟨vdis.map (fun v : Nat × Bool => ApiCall.vdiBackup v.1),
      vdis.map (fun v : Nat × Bool =>
        if v.2 then ApiCall.dataDestroy v.1 else ApiCall.vdiDestroy v.1),
      rfl, ?_, ?_⟩
    · intro v hv
      rcases List.mem_map.1 hv with ⟨u, _, hu⟩
      simp at hu
    · intro v hv
      rcases List.mem_map.1 hv with ⟨u, _, hu⟩
      simp at hu
  · intro v hv
    constructor
    · intro h2
      unfold vm_backup_trace
      refine List.mem_append.2 (Or.inr (List.mem_map.2 ⟨v, hv, ?_⟩))
      rw [h2]
      rfl
    · intro h2
      unfold vm_backup_trace
      refine List.mem_append.2 (Or.inr (List.mem_map.2 ⟨v, hv, ?_⟩))
      rw [h2]
      rfl
  · intro x hx
    unfold vm_backup_trace at hx
    rcases List.mem_append.1 hx with hx | hx
    · rcases List.mem_append.1 hx with hx | hx
      · rcases List.mem_map.1 hx with ⟨u, _, hu⟩
        simp at hu
      · simp at hx
    · rcases List.mem_map.1 hx with ⟨u, hu, hequ⟩
      by_cases hc : u.2
      · rw [if_pos hc] at hequ
        have hx1 : u.1 = x := by
          cases hequ
          rfl
        have : u = (x, true) := by
          obtain ⟨u1, u2⟩ := u
          simp at hc hx1
          rw [hc, hx1]
        rw [← this]
        exact hu
      · rw [if_neg hc] at hequ
        cases hequ

/-- Witness for C9: on a snapshot with a CBT-enabled VDI 1 and a
non-CBT VDI 2, VDI 1 is `data_destroy`ed, VDI 2 is `destroy`ed, and
`data_destroy` of VDI 1 implies it was CBT-enabled. -/
theorem vm_backup_cleanup_order_witness :
    (ApiCall.dataDestroy 1 ∈ vm_backup_trace 7 [(1, true), (2, false)]) ∧
    (ApiCall.vdiDestroy 2 ∈ vm_backup_trace 7 [(1, true), (2, false)]) ∧
    ((1, true) ∈ [(1, true), (2, false)]) :=
  ⟨((vm_backup_cleanup_order 7 [(1, true), (2, false)]).2.1 (1, true) (by decide)).1 rfl,
    ((vm_backup_cleanup_order 7 [(1, true), (2, false)]).2.1 (2, false) (by decide)).2 rfl,
    (vm_backup_cleanup_order 7 [(1, true), (2, false)]).2.2 1 (by decide)⟩

end CbtBackup
